import Mathlib

/-!
Shallow embedding of `src/controller/Sensors/Sensors.h` (the sensor
abstraction layer of the penguins controller).

The repository ships only the header: class declarations, member lists and
the inline `vector` value type.  Members declared in the header (field
types, constness, the `void` return of `AMG::init`) are embedded from the
source.  Method bodies are not in the repository; each one is modelled
from the specification and carries a doc comment saying so.

Machine integers: the target is an AVR Arduino, where `unsigned int` is
16 bits and `byte` is 8 bits.  An `unsigned int` member is modelled as an
`Int` reduced modulo `2 ^ 16` at every store, so that non-negativity and
range are proved, not assumed.  The C++ `float` components of
`AMG::vector` are modelled as `Int`: every claim about them involves only
zero-initialisation and whole-value assignment, never floating-point
arithmetic, and the raw register values the sub-devices deliver are
integers.
-/

/-- Width in bits of `unsigned int` on the AVR Arduino target. -/
def UINT_BITS : Nat := 16

/-- Reduction of a stored value to the `unsigned int` range: the machine
representation of any value written into an `unsigned int` member lies in
`[0, 2 ^ UINT_BITS)`. -/
def uintMod (n : Int) : Int := n % ((2 : Int) ^ UINT_BITS)

/-- State of a `Potentiometer` instance: `prefix_` is the diagnostic label
(`const char *`), `pin_` the `const byte` channel, `last_value_` the
`unsigned int` last reading, and `buf_` the reusable text buffer that
`get_data` writes into (the buffer itself is not declared in the header;
it is modelled from the spec, which requires an internally owned reusable
buffer). -/
structure Potentiometer where
  prefix_ : String
  pin_ : Nat
  last_value_ : Int
  buf_ : String
deriving DecidableEq

/-- Models the C++ constructor `Potentiometer(sensor_prefix, potPin)`.
The body is not in the header; the label and pin are stored.
`last_value_` starts uninitialised: its indeterminate contents are passed
in as `v0` (any `unsigned int` object holds some value of its range, hence
the reduction). -/
def Potentiometer.make (label : String) (potPin : Nat) (v0 : Int) : Potentiometer :=
  { prefix_ := label, pin_ := potPin, last_value_ := uintMod v0, buf_ := "" }

/-- Modelled from the spec: the body of `Potentiometer::read` is not in the
repository.  Spec 4.2: "samples the channel, converts to an unsigned
integer scale, stores as `last_value`".  The raw sampled value is an input
of the model; storing into the `unsigned int` member reduces it to range. -/
def Potentiometer.read (s : Potentiometer) (sample : Int) : Potentiometer :=
  { s with last_value_ := uintMod sample }

/-- Modelled from the spec: the body of `Potentiometer::get_data` is not in
the repository.  Spec 4.2: "formats `last_value` as text into the reusable
buffer and returns it".  The result is the returned text together with the
instance after the buffer write. -/
def Potentiometer.get_data (s : Potentiometer) : String × Potentiometer :=
  (toString s.last_value_, { s with buf_ := toString s.last_value_ })

/-- The operations a caller can invoke on a `Potentiometer` through the
`Sensor` interface; a `read` carries the raw value the channel delivers. -/
inductive PotOp where
  | read (sample : Int)
  | get_data
deriving DecidableEq

/-- One caller-visible operation on a `Potentiometer`. -/
def Potentiometer.step (s : Potentiometer) : PotOp → Potentiometer
  | PotOp.read v => s.read v
  | PotOp.get_data => (s.get_data).2

/-- A sequence of caller-visible operations on a `Potentiometer`. -/
def Potentiometer.runOps (s : Potentiometer) : List PotOp → Potentiometer
  | [] => s
  | op :: ops => (s.step op).runOps ops

/-- Modelled from the spec: the timeout bound of the `Sonar` echo wait (the
body of `Sonar::read` is not in the repository).  Spec 4.3 requires "a
bounded wait with a timeout value"; the bound is a fixed number of ticks. -/
def SONAR_TIMEOUT : Nat := 30000

/-- Modelled from the spec: the documented sentinel recorded on a timed-out
echo.  Spec 4.3: "recording a sentinel (e.g., zero or maximum range)";
zero is taken. -/
def SONAR_SENTINEL : Int := 0

/-- The bounded echo wait: starting at tick `t`, poll the echo line for at
most `fuel` ticks, returning the tick at which the echo arrived, or `none`
when the bound is exhausted.  The environment is the predicate `echoAt`
telling whether the echo line is high at a tick. -/
def waitForEcho (echoAt : Nat → Bool) : Nat → Nat → Option Nat
  | 0, _ => none
  | fuel + 1, t => if echoAt t then some t else waitForEcho echoAt fuel (t + 1)

/-- Modelled from the spec: conversion of an echo round-trip time to a
distance (spec 4.3 "derives a distance/time value"; the usual
microseconds-to-centimetres divisor of an ultrasonic rangefinder). -/
def echoToDistance (t : Nat) : Int := (t : Int) / 58

/-- State of a `Sonar` instance; fields as for `Potentiometer` (the header
declares the same `const byte pin_` and `unsigned int last_value_`). -/
structure Sonar where
  prefix_ : String
  pin_ : Nat
  last_value_ : Int
  buf_ : String
deriving DecidableEq

/-- Models the C++ constructor `Sonar(sensor_prefix, sonarPin)`; as for
`Potentiometer.make`, `v0` is the indeterminate initial contents of the
uninitialised `last_value_`. -/
def Sonar.make (label : String) (sonarPin : Nat) (v0 : Int) : Sonar :=
  { prefix_ := label, pin_ := sonarPin, last_value_ := uintMod v0, buf_ := "" }

/-- Modelled from the spec: the body of `Sonar::read` is not in the
repository.  Spec 4.3: trigger a measurement, wait for the echo at most
`SONAR_TIMEOUT` ticks, store the derived distance as `last_value`; a
timeout is "no echo" and stores `SONAR_SENTINEL` instead of blocking. -/
def Sonar.read (s : Sonar) (echoAt : Nat → Bool) : Sonar :=
  match waitForEcho echoAt SONAR_TIMEOUT 0 with
  | some t => { s with last_value_ := uintMod (echoToDistance t) }
  | none => { s with last_value_ := SONAR_SENTINEL }

/-- Modelled from the spec: the body of `Sonar::get_data` is not in the
repository.  Spec 4.3: "formats `last_value` as text". -/
def Sonar.get_data (s : Sonar) : String × Sonar :=
  (toString s.last_value_, { s with buf_ := toString s.last_value_ })

/-- The operations a caller can invoke on a `Sonar`; a `read` carries the
echo environment of that measurement cycle. -/
inductive SonarOp where
  | read (echoAt : Nat → Bool)
  | get_data

/-- One caller-visible operation on a `Sonar`. -/
def Sonar.step (s : Sonar) : SonarOp → Sonar
  | SonarOp.read e => s.read e
  | SonarOp.get_data => (s.get_data).2

/-- A sequence of caller-visible operations on a `Sonar`. -/
def Sonar.runOps (s : Sonar) : List SonarOp → Sonar
  | [] => s
  | op :: ops => (s.step op).runOps ops

/-- The `AMG::vector` value type of the header: `struct vector` with the
default constructor `vector() : x(0), y(0), z(0)`.  The C++ components are
`float`; they are modelled as `Int` (see the file comment). -/
structure AMG.vector where
  x : Int
  y : Int
  z : Int
deriving DecidableEq

/-- The default constructor of `AMG::vector`, embedded from the header:
`vector() : x(0), y(0), z(0) \x7b\x7d`. -/
def AMG.vector.new : AMG.vector := { x := 0, y := 0, z := 0 }

/-- Text form of one three-axis vector (three components separated by
spaces), used by the modelled `AMG::get_data`. -/
def AMG.vector.format (v : AMG.vector) : String :=
  toString v.x ++ " " ++ toString v.y ++ " " ++ toString v.z

/-- Text form of the full nine-component AMG reading. -/
def AMG.formatData (va vm vg : AMG.vector) : String :=
  va.format ++ " " ++ vm.format ++ " " ++ vg.format

/-- State of an `AMG` instance.  The header declares `bool initialized_`
and the three vectors `a_`, `m_`, `g_`; `buf_` is the modelled reusable
text buffer.  The `gyro_` and `compass_` members are handles to external
hardware sub-devices; their device state lives outside the program and
their outputs enter the model as inputs of `AMG.read`. -/
structure AMG where
  prefix_ : String
  initialized_ : Bool
  a_ : AMG.vector
  m_ : AMG.vector
  g_ : AMG.vector
  buf_ : String
deriving DecidableEq

/-- Models the C++ constructor `AMG(sensor_prefix)`.  Modelled from the
spec where the body is missing: spec 3 has the flag "false until `init()`
completes successfully", and the vectors are default-constructed by the
header's `vector()` constructor. -/
def AMG.make (label : String) : AMG :=
  { prefix_ := label, initialized_ := false,
    a_ := AMG.vector.new, m_ := AMG.vector.new, g_ := AMG.vector.new,
    buf_ := "" }

/-- `AMG::init` is declared `void init();` in the header, so the caller
receives only the `Unit` second component.  The body is modelled from the
spec: spec 4.4, one-time hardware bring-up that "sets the initialized flag
true on success"; the bring-up outcome `hwOk` is an input of the model,
and a failed bring-up leaves the flag as it was. -/
def AMG.init (s : AMG) (hwOk : Bool) : AMG × Unit :=
  (if hwOk then { s with initialized_ := true } else s, ())

/-- Modelled from the spec: the body of `AMG::read` is not in the
repository.  Spec 4.4 makes `initialized_` a precondition and spec 7
requires a rejected read to fail fast and not fabricate data: before a
successful `init()` the call is an error and stores nothing; afterwards it
stores the three sub-device samples into `a_`, `m_`, `g_`. -/
def AMG.read (s : AMG) (va vm vg : AMG.vector) : Except String AMG :=
  if s.initialized_ then
    Except.ok { s with a_ := va, m_ := vm, g_ := vg }
  else
    Except.error "AMG: read before init"

/-- Modelled from the spec: the body of `AMG::get_data` is not in the
repository.  Spec 4.4: "formats all nine scalar components (three vectors)
into the reusable buffer". -/
def AMG.get_data (s : AMG) : String × AMG :=
  (AMG.formatData s.a_ s.m_ s.g_,
   { s with buf_ := AMG.formatData s.a_ s.m_ s.g_ })

/-- The operations a caller can invoke on an `AMG`: `init` carries the
hardware bring-up outcome of that attempt, `read` the three sub-device
samples of that cycle. -/
inductive AMGOp where
  | init (hwOk : Bool)
  | read (va vm vg : AMG.vector)
  | get_data

/-- One caller-visible operation on an `AMG`.  A rejected `read` (the
error case) leaves the instance unchanged. -/
def AMG.step (s : AMG) : AMGOp → AMG
  | AMGOp.init ok => (s.init ok).1
  | AMGOp.read va vm vg =>
      match s.read va vm vg with
      | Except.ok s2 => s2
      | Except.error _ => s
  | AMGOp.get_data => (s.get_data).2

/-- A sequence of caller-visible operations on an `AMG`. -/
def AMG.runOps (s : AMG) : List AMGOp → AMG
  | [] => s
  | op :: ops => (s.step op).runOps ops

/-- An `AMG` instance whose hardware bring-up has succeeded: the state of
`AMG.make "imu"` after a successful `init`. -/
def amgReady : AMG := ((AMG.make "imu").init true).1

/-- A sample sub-device reading used in concrete witnesses. -/
def vSample : AMG.vector := { x := 1, y := 2, z := 3 }

/-- Claim C8: every newly constructed three-axis vector (the `AMG::vector`
type used for `a_`, `m_`, `g_`) has all three components `x`, `y`, `z`
equal to zero at construction. -/
theorem vector_zero_on_construction :
    AMG.vector.new.x = 0 ∧ AMG.vector.new.y = 0 ∧ AMG.vector.new.z = 0 :=
  ⟨rfl, rfl, rfl⟩

/-- Claim C1: for every sensor variant and every state (hence after any
sequence of operations), `get_data` after a `read` returns text that is
exactly the text of the value stored by that most recent `read`; in
particular a `Potentiometer` with any label and channel whose `read`
samples channel value 512 then answers `get_data` with "512". -/
theorem get_data_reflects_last_read :
    (∀ (p : Potentiometer) (v : Int),
      ((p.read v).get_data).1 = toString (uintMod v)) ∧
    (∀ (s : Sonar) (echoAt : Nat → Bool),
      ((s.read echoAt).get_data).1 = toString ((s.read echoAt).last_value_)) ∧
    (∀ (a : AMG) (va vm vg : AMG.vector) (a2 : AMG),
      a.read va vm vg = Except.ok a2 →
      ((a2.get_data).1 = AMG.formatData va vm vg)) ∧
    (∀ (label : String) (potPin : Nat) (v0 : Int),
      (((Potentiometer.make label potPin v0).read 512).get_data).1 = "512") := by
  refine ⟨fun p v => rfl, fun s echoAt => rfl, fun a va vm vg a2 h => ?_, fun label potPin v0 => ?_⟩
  · unfold AMG.read at h
    by_cases hi : a.initialized_
    · simp [hi] at h
      subst h
      rfl
    · simp [hi] at h
  · show toString (uintMod 512) = "512"
    decide

/-- Witness for C1 at concrete inputs: the end-to-end 512 scenario on
`Potentiometer.make "pot" 3 0`, and the AMG conjunct at a successfully
initialised instance reading the sample vector. -/
theorem get_data_reflects_last_read_witness :
    ((((Potentiometer.make "pot" 3 0).read 512).get_data).1 = "512") ∧
    ((({ amgReady with a_ := vSample, m_ := vSample, g_ := vSample } : AMG).get_data).1
      = AMG.formatData vSample vSample vSample) :=
  ⟨get_data_reflects_last_read.2.2.2 "pot" 3 0,
   get_data_reflects_last_read.2.2.1 amgReady vSample vSample vSample _ rfl⟩

/-- Claim C2: an `AMG` on which no successful `init` has occurred
(`initialized_` is false) rejects any `read`: the call is an error and the
instance is unchanged, so no default zero-vector reading is stored into
`a_`, `m_`, `g_`. -/
theorem amg_read_before_init_rejected :
    ∀ (s : AMG) (va vm vg : AMG.vector),
      s.initialized_ = false →
      s.read va vm vg = Except.error "AMG: read before init" ∧
      AMG.step s (AMGOp.read va vm vg) = s := by
  intro s va vm vg h
  constructor
  · unfold AMG.read
    simp [h]
  · unfold AMG.step AMG.read
    simp [h]

/-- Witness for C2: a freshly constructed `AMG "imu"` rejects a `read` of
three default vectors. -/
theorem amg_read_before_init_rejected_witness :
    (AMG.make "imu").read AMG.vector.new AMG.vector.new AMG.vector.new
      = Except.error "AMG: read before init" :=
  (amg_read_before_init_rejected (AMG.make "imu")
    AMG.vector.new AMG.vector.new AMG.vector.new rfl).1

/-- Claim C4: for every sensor variant and every state of the instance,
two consecutive `get_data` calls with no intervening `read` return
identical content. -/
theorem get_data_idempotent :
    ∀ (p : Potentiometer) (s : Sonar) (a : AMG),
      ((p.get_data).1 = (((p.get_data).2).get_data).1) ∧
      ((s.get_data).1 = (((s.get_data).2).get_data).1) ∧
      ((a.get_data).1 = (((a.get_data).2).get_data).1) :=
  fun p s a => ⟨rfl, rfl, rfl⟩

/-- Claim C6: on a freshly constructed instance of any variant, with no
prior `read`, `get_data` is a defined total operation (no crash or
abort): it returns the text of whatever indeterminate value the instance
holds. -/
theorem get_data_fresh_no_crash :
    ∀ (label : String) (chanPin : Nat) (v0 : Int),
      (((Potentiometer.make label chanPin v0).get_data).1 = toString (uintMod v0)) ∧
      (((Sonar.make label chanPin v0).get_data).1 = toString (uintMod v0)) ∧
      (((AMG.make label).get_data).1
        = AMG.formatData AMG.vector.new AMG.vector.new AMG.vector.new) :=
  fun label chanPin v0 => ⟨rfl, rfl, rfl⟩

/-- Counterexample to claim C3 as stated: the header declares
`void init();`, so the caller-visible result of `AMG::init` is the same
whether hardware bring-up succeeded or failed, even though the two
outcomes leave the instance in different states — the outcome is not
observable by the caller through `init()`. -/
theorem amg_init_signal_counterexample :
    (((AMG.make "imu").init true).1.initialized_
        ≠ ((AMG.make "imu").init false).1.initialized_) ∧
    ((AMG.make "imu").init true).2 = ((AMG.make "imu").init false).2 :=
  ⟨by decide, rfl⟩

/-- Claim C3 amended: `AMG::init` records the bring-up outcome in the
private `initialized_` flag (true exactly when the flag was already set or
this bring-up succeeded), but returns `void`: the value handed back to the
caller carries no success/failure signal, being identical for both
outcomes. -/
theorem amg_init_outcome_internal :
    ∀ (s : AMG) (hwOk : Bool),
      ((s.init hwOk).1.initialized_ = (s.initialized_ || hwOk)) ∧
      ((s.init hwOk).2 = (s.init (!hwOk)).2) := by
  intro s hwOk
  cases hwOk <;> simp [AMG.init]

/-- An echo line that stays low for `fuel` ticks from tick `t0` makes the
bounded wait exhaust its fuel and report no echo. -/
theorem waitForEcho_eq_none (echoAt : Nat → Bool) :
    ∀ (fuel t0 : Nat),
      (∀ t, t0 ≤ t → t < t0 + fuel → echoAt t = false) →
      waitForEcho echoAt fuel t0 = none := by
  intro fuel
  induction fuel with
  | zero => intro t0 _; rfl
  | succ n ih =>
      intro t0 h
      unfold waitForEcho
      rw [h t0 (le_refl t0) (by omega)]
      simp only [Bool.false_eq_true, if_false]
      exact ih (t0 + 1) (fun t h1 h2 => h t (by omega) (by omega))

/-- Claim C5: a `Sonar` `read` under a no-echo condition (echo line low
throughout the timeout window) completes the wait at the timeout bound —
the bounded wait returns `none` rather than blocking past the bound — and
stores the documented sentinel as `last_value_`. -/
theorem sonar_read_no_echo :
    ∀ (s : Sonar) (echoAt : Nat → Bool),
      (∀ t, t < SONAR_TIMEOUT → echoAt t = false) →
      waitForEcho echoAt SONAR_TIMEOUT 0 = none ∧
      (s.read echoAt).last_value_ = SONAR_SENTINEL := by
  intro s echoAt h
  have hw : waitForEcho echoAt SONAR_TIMEOUT 0 = none :=
    waitForEcho_eq_none echoAt SONAR_TIMEOUT 0 (fun t _ h2 => h t (by omega))
  refine ⟨hw, ?_⟩
  unfold Sonar.read
  rw [hw]

/-- Witness for C5: a `Sonar` on pin 7 whose echo line never goes high
records the sentinel. -/
theorem sonar_read_no_echo_witness :
    ((Sonar.make "sonar" 7 0).read (fun _ => false)).last_value_ = SONAR_SENTINEL :=
  (sonar_read_no_echo (Sonar.make "sonar" 7 0) (fun _ => false) (fun t _ => rfl)).2

/-- A single operation on a `Potentiometer` leaves `pin_` unchanged. -/
theorem pot_step_pin (s : Potentiometer) (op : PotOp) :
    (s.step op).pin_ = s.pin_ := by
  cases op <;> rfl

/-- Any sequence of operations on a `Potentiometer` leaves `pin_`
unchanged. -/
theorem pot_runOps_pin :
    ∀ (ops : List PotOp) (s : Potentiometer), (s.runOps ops).pin_ = s.pin_ := by
  intro ops
  induction ops with
  | nil => intro s; rfl
  | cons op ops ih =>
      intro s
      show ((s.step op).runOps ops).pin_ = s.pin_
      rw [ih (s.step op), pot_step_pin]

/-- A single operation on a `Sonar` leaves `pin_` unchanged. -/
theorem sonar_step_pin (s : Sonar) (op : SonarOp) :
    (s.step op).pin_ = s.pin_ := by
  cases op with
  | read e =>
      show (s.read e).pin_ = s.pin_
      unfold Sonar.read
      cases waitForEcho e SONAR_TIMEOUT 0 <;> rfl
  | get_data => rfl

/-- Any sequence of operations on a `Sonar` leaves `pin_` unchanged. -/
theorem sonar_runOps_pin :
    ∀ (ops : List SonarOp) (s : Sonar), (s.runOps ops).pin_ = s.pin_ := by
  intro ops
  induction ops with
  | nil => intro s; rfl
  | cons op ops ih =>
      intro s
      show ((s.step op).runOps ops).pin_ = s.pin_
      rw [ih (s.step op), sonar_step_pin]

/-- Claim C7: for every `Potentiometer` and `Sonar`, the channel
identifier `pin_` bound at construction is never reassigned: after any
sequence of operations it still equals the constructor argument. -/
theorem pin_never_reassigned :
    ∀ (label : String) (chan : Nat) (v0 : Int)
      (ops : List PotOp) (ops2 : List SonarOp),
      ((Potentiometer.make label chan v0).runOps ops).pin_ = chan ∧
      ((Sonar.make label chan v0).runOps ops2).pin_ = chan :=
  fun label chan v0 ops ops2 =>
    ⟨pot_runOps_pin ops (Potentiometer.make label chan v0),
     sonar_runOps_pin ops2 (Sonar.make label chan v0)⟩

/-- A single operation either leaves the `initialized_` flag of an `AMG`
unchanged or is a successful `init`. -/
theorem AMG.step_initialized_eq (s : AMG) (op : AMGOp) :
    (s.step op).initialized_ = s.initialized_ ∨ op = AMGOp.init true := by
  cases op with
  | init ok =>
      cases ok
      · left; simp [AMG.step, AMG.init]
      · right; rfl
  | read va vm vg =>
      left
      cases hi : s.initialized_ <;> simp [AMG.step, AMG.read, hi]
  | get_data => left; rfl

/-- A single operation never clears the `initialized_` flag of an `AMG`. -/
theorem AMG.step_initialized_mono (s : AMG) (op : AMGOp)
    (h : s.initialized_ = true) : (s.step op).initialized_ = true := by
  rcases AMG.step_initialized_eq s op with he | he
  · rw [he, h]
  · rw [he]
    show (s.step (AMGOp.init true)).initialized_ = true
    simp [AMG.step, AMG.init]

/-- No sequence of operations ever clears the `initialized_` flag of an
`AMG`. -/
theorem AMG.runOps_initialized_mono :
    ∀ (ops : List AMGOp) (s : AMG), s.initialized_ = true →
      (s.runOps ops).initialized_ = true := by
  intro ops
  induction ops with
  | nil => intro s h; exact h
  | cons op ops ih =>
      intro s h
      exact ih (s.step op) (AMG.step_initialized_mono s op h)

/-- If a sequence of operations takes an `AMG` from the flag being false
to the flag being true, the sequence contains a successful `init`. -/
theorem AMG.runOps_initialized_source :
    ∀ (ops : List AMGOp) (s : AMG),
      s.initialized_ = false → (s.runOps ops).initialized_ = true →
      AMGOp.init true ∈ ops := by
  intro ops
  induction ops with
  | nil =>
      intro s h0 h1
      simp [AMG.runOps, h0] at h1
  | cons op ops ih =>
      intro s h0 h1
      cases hs : (s.step op).initialized_ with
      | true =>
          rcases AMG.step_initialized_eq s op with he | he
          · rw [he, h0] at hs
            exact absurd hs (by decide)
          · rw [he]
            exact List.mem_cons_self _ _
      | false =>
          exact List.mem_cons_of_mem op (ih (s.step op) hs h1)

/-- Claim C9: the `AMG` state machine has the two states given by the
`initialized_` flag; from `initialized_ = false` the flag becomes true
only through a successful `init` occurring in the operation sequence, and
from `initialized_ = true` no sequence of operations ever brings the
instance back to the uninitialised state. -/
theorem amg_two_state_machine :
    ∀ (s : AMG) (ops : List AMGOp),
      (s.initialized_ = true → (s.runOps ops).initialized_ = true) ∧
      (s.initialized_ = false → (s.runOps ops).initialized_ = true →
        AMGOp.init true ∈ ops) :=
  fun s ops =>
    ⟨AMG.runOps_initialized_mono ops s, AMG.runOps_initialized_source ops s⟩

/-- Witness for C9 at concrete inputs: an initialised instance stays
initialised across a `get_data`, and a fresh instance that ends up
initialised after running `init true` then `get_data` indeed has the
successful `init` in its operation sequence. -/
theorem amg_two_state_machine_witness :
    ((amgReady.runOps [AMGOp.get_data]).initialized_ = true) ∧
    (AMGOp.init true ∈ [AMGOp.init true, AMGOp.get_data]) :=
  ⟨(amg_two_state_machine amgReady [AMGOp.get_data]).1 rfl,
   (amg_two_state_machine (AMG.make "imu") [AMGOp.init true, AMGOp.get_data]).2
     rfl rfl⟩

/-- Every value stored through the unsigned reduction lies in the
`unsigned int` range. -/
theorem uintMod_range (n : Int) :
    0 ≤ uintMod n ∧ uintMod n < (2 : Int) ^ UINT_BITS := by
  unfold uintMod
  exact ⟨Int.emod_nonneg n (by decide), Int.emod_lt_of_pos n (by decide)⟩

/-- A single operation keeps a `Potentiometer`'s `last_value_` in the
`unsigned int` range. -/
theorem pot_step_last_value_range (s : Potentiometer) (op : PotOp)
    (h : 0 ≤ s.last_value_ ∧ s.last_value_ < (2 : Int) ^ UINT_BITS) :
    0 ≤ (s.step op).last_value_ ∧ (s.step op).last_value_ < (2 : Int) ^ UINT_BITS := by
  cases op with
  | read v => exact uintMod_range v
  | get_data => exact h

/-- Any sequence of operations keeps a `Potentiometer`'s `last_value_` in
the `unsigned int` range. -/
theorem pot_runOps_last_value_range :
    ∀ (ops : List PotOp) (s : Potentiometer),
      (0 ≤ s.last_value_ ∧ s.last_value_ < (2 : Int) ^ UINT_BITS) →
      0 ≤ (s.runOps ops).last_value_ ∧
        (s.runOps ops).last_value_ < (2 : Int) ^ UINT_BITS := by
  intro ops
  induction ops with
  | nil => intro s h; exact h
  | cons op ops ih =>
      intro s h
      exact ih (s.step op) (pot_step_last_value_range s op h)

/-- A single operation keeps a `Sonar`'s `last_value_` in the
`unsigned int` range. -/
theorem sonar_step_last_value_range (s : Sonar) (op : SonarOp)
    (h : 0 ≤ s.last_value_ ∧ s.last_value_ < (2 : Int) ^ UINT_BITS) :
    0 ≤ (s.step op).last_value_ ∧ (s.step op).last_value_ < (2 : Int) ^ UINT_BITS := by
  cases op with
  | read e =>
      have hf : (s.read e).last_value_ = SONAR_SENTINEL ∨
          ∃ t, (s.read e).last_value_ = uintMod (echoToDistance t) := by
        unfold Sonar.read
        cases waitForEcho e SONAR_TIMEOUT 0 with
        | some t => exact Or.inr ⟨t, rfl⟩
        | none => exact Or.inl rfl
      show 0 ≤ (s.read e).last_value_ ∧ (s.read e).last_value_ < (2 : Int) ^ UINT_BITS
      rcases hf with hf | ⟨t, hf⟩
      · rw [hf]
        exact ⟨by decide, by decide⟩
      · rw [hf]
        exact uintMod_range (echoToDistance t)
  | get_data => exact h

/-- Any sequence of operations keeps a `Sonar`'s `last_value_` in the
`unsigned int` range. -/
theorem sonar_runOps_last_value_range :
    ∀ (ops : List SonarOp) (s : Sonar),
      (0 ≤ s.last_value_ ∧ s.last_value_ < (2 : Int) ^ UINT_BITS) →
      0 ≤ (s.runOps ops).last_value_ ∧
        (s.runOps ops).last_value_ < (2 : Int) ^ UINT_BITS := by
  intro ops
  induction ops with
  | nil => intro s h; exact h
  | cons op ops ih =>
      intro s h
      exact ih (s.step op) (sonar_step_last_value_range s op h)

/-- Claim C10: for every `Potentiometer` and `Sonar` and after any
sequence of operations from construction, the stored reading
`last_value_` is non-negative and representable in the `unsigned int`
machine width: no operation can ever store a negative reading into the
unsigned member. -/
theorem last_value_unsigned_range :
    ∀ (label : String) (chan : Nat) (v0 : Int)
      (ops : List PotOp) (ops2 : List SonarOp),
      (0 ≤ ((Potentiometer.make label chan v0).runOps ops).last_value_ ∧
        ((Potentiometer.make label chan v0).runOps ops).last_value_
          < (2 : Int) ^ UINT_BITS) ∧
      (0 ≤ ((Sonar.make label chan v0).runOps ops2).last_value_ ∧
        ((Sonar.make label chan v0).runOps ops2).last_value_
          < (2 : Int) ^ UINT_BITS) :=
  fun label chan v0 ops ops2 =>
    ⟨pot_runOps_last_value_range ops (Potentiometer.make label chan v0)
        (uintMod_range v0),
     sonar_runOps_last_value_range ops2 (Sonar.make label chan v0)
        (uintMod_range v0)⟩
